import Mathlib

/-!
Shallow embedding of `SecureKeyGenerator` (src/src/index.ts) from the
rsa-token-pair-generator repository, together with proofs about the
environment-file handling, key generation/validation flow, and the
persistence control flow.
-/

namespace SecureKeyGen

/-- JavaScript strings are modelled as lists of characters. -/
abbrev JStr := List Char

/-- `String.prototype.trim`: drop whitespace from both ends.
(JS trims Unicode whitespace; `Char.isWhitespace` covers the ASCII
whitespace relevant to env files.) -/
def jsTrim (s : JStr) : JStr :=
  ((s.dropWhile Char.isWhitespace).reverse.dropWhile Char.isWhitespace).reverse

/-- `value.replace(/\n/g, "\\n")` from `saveKeys` (line 202): escape each
literal newline to the two-character sequence backslash-n. -/
def escNewlines : JStr → JStr
  | [] => []
  | c :: cs => if c = '\n' then '\\' :: 'n' :: escNewlines cs else c :: escNewlines cs

/-- `.replace(/^"|"$/g, "")` from `loadExistingEnv` (line 132): remove one
leading double quote and one trailing double quote, each independently when
present (the regex is anchored, so at most one character is removed at each
end). -/
def stripQuotes (s : JStr) : JStr :=
  let s1 := if s.head? = some '"' then s.tail else s
  if s1.getLast? = some '"' then s1.dropLast else s1

/-- An environment record as built by successive JavaScript object property
assignments: an association list in insertion order (keys unique by
construction of `jsInsert`). -/
abbrev Env := List (JStr × JStr)

/-- JavaScript `obj[k] = v`: overwrite the value in place when the key is
already present, otherwise append the new property. -/
def jsInsert (e : Env) (k v : JStr) : Env :=
  if e.any (fun p => p.1 == k) then
    e.map (fun p => if p.1 = k then (k, v) else p)
  else e ++ [(k, v)]

/-- Property lookup on an environment record. -/
def envLookup (e : Env) (k : JStr) : Option JStr :=
  (e.find? (fun p => p.1 == k)).map Prod.snd

/-- One iteration of the `forEach` line loop in `loadExistingEnv`
(lines 127–135): trim the line; skip it when blank or starting with `#`;
split on `=`; when the part before the first `=` is nonempty, assign the
trimmed key to the rest of the line rejoined on `=`, quote-stripped and
trimmed. -/
def processEnvLine (env : Env) (line : JStr) : Env :=
  let t := jsTrim line
  if t ≠ [] ∧ t.head? ≠ some '#' then
    match t.splitOn '=' with
    | [] => env
    | k :: valueParts =>
      if k ≠ [] then
        jsInsert env (jsTrim k) (jsTrim (stripQuotes (List.intercalate ['='] valueParts)))
      else env
  else env

/-- The parsing loop of `loadExistingEnv` (lines 127–135): split the file
content on newlines and process each line in order, starting from an empty
record. -/
def parseEnvContent (content : JStr) : Env :=
  (content.splitOn '\n').foldl processEnvLine []

/-- One serialized line of `saveKeys` (line 202): `KEY="value"`, newlines in
the value escaped. -/
def renderEnvLine (p : JStr × JStr) : JStr :=
  p.1 ++ '=' :: '"' :: (escNewlines p.2 ++ ['"'])

/-- Serialization in `saveKeys` (lines 201–203): one line per entry, joined
with newlines. -/
def serializeEnv (e : Env) : JStr :=
  List.intercalate ['\n'] (e.map renderEnvLine)

/-- The object spread `{ ...existingEnv, KEY1: v1, ... }` in `saveKeys`
(lines 186–198): sequential property assignment of the updates over the
existing record. -/
def mergeEnv (existing updates : Env) : Env :=
  updates.foldl (fun e p => jsInsert e p.1 p.2) existing

/-- `path.join` with the path separator. -/
def pathJoin (a b : JStr) : JStr := a ++ '/' :: b

/-- A key pair as produced by `generateRSAKeyPair` (interface.ts). -/
structure KeyPair where
  publicKey : JStr
  privateKey : JStr
  passphrase : JStr
deriving DecidableEq

/-- Access and refresh key pairs (interface.ts). -/
structure TokenKeyPairs where
  access : KeyPair
  refresh : KeyPair
deriving DecidableEq

/-- The ten key-derived environment entries of `saveKeys` (lines 186–198),
in source order. -/
def newEnvEntries (keyPath : JStr) (tk : TokenKeyPairs) : Env :=
  [ ("ACCESS_TOKEN_PUBLIC_KEY_PATH".toList, pathJoin keyPath "access-public.pem".toList),
    ("ACCESS_TOKEN_PRIVATE_KEY_PATH".toList, pathJoin keyPath "access-private.pem".toList),
    ("ACCESS_TOKEN_PRIVATE_KEY_PASSPHRASE".toList, tk.access.passphrase),
    ("ACCESS_TOKEN_PUBLIC_KEY".toList, tk.access.publicKey),
    ("ACCESS_TOKEN_PRIVATE_KEY".toList, tk.access.privateKey),
    ("REFRESH_TOKEN_PUBLIC_KEY_PATH".toList, pathJoin keyPath "refresh-public.pem".toList),
    ("REFRESH_TOKEN_PRIVATE_KEY_PATH".toList, pathJoin keyPath "refresh-private.pem".toList),
    ("REFRESH_TOKEN_PRIVATE_KEY_PASSPHRASE".toList, tk.refresh.passphrase),
    ("REFRESH_TOKEN_PUBLIC_KEY".toList, tk.refresh.publicKey),
    ("REFRESH_TOKEN_PRIVATE_KEY".toList, tk.refresh.privateKey) ]

/-- Both ends of a string are free of whitespace (true for the empty
string). -/
def noWsEdges (s : JStr) : Bool :=
  (s.head?.all fun c => !c.isWhitespace) && (s.getLast?.all fun c => !c.isWhitespace)

/-- A key that survives serialization and reparsing unchanged: nonempty, no
newline, no `=`, not beginning with `#`, no surrounding whitespace. -/
def GoodKey (k : JStr) : Prop :=
  k ≠ [] ∧ '\n' ∉ k ∧ '=' ∉ k ∧ k.head? ≠ some '#' ∧ noWsEdges k = true

instance (k : JStr) : Decidable (GoodKey k) := by unfold GoodKey; infer_instance

/-- A value whose escaped form carries no leading or trailing whitespace
(so the final `.trim()` of the parser does not disturb it). -/
def GoodVal (v : JStr) : Prop :=
  noWsEdges (escNewlines v) = true

instance (v : JStr) : Decidable (GoodVal v) := by unfold GoodVal; infer_instance

/-! ## Crypto model

The Node `crypto` module is external to the repository; it is modelled
abstractly: an entropy stream indexed by byte position (`randomBytes`
consumes successive positions), the amount of entropy `generateKeyPairSync`
consumes and the key material it derives at a given position, and the
outcomes of `crypto.sign` / `crypto.verify`, which may throw (`Except`). -/

structure CryptoOracle where
  stream : Nat → Fin 256
  keygenEntropy : Nat
  keygenPub : Nat → JStr
  keygenPriv : Nat → JStr
  signResult : JStr → JStr → List (Fin 256) → Except String (List (Fin 256))
  verifyResult : JStr → List (Fin 256) → List (Fin 256) → Except String Bool

/-- `crypto.randomBytes n` starting at entropy offset `off`. -/
def randomBytes (co : CryptoOracle) (off n : Nat) : List (Fin 256) :=
  (List.range n).map (fun i => co.stream (off + i))

/-- One lowercase hexadecimal digit. -/
def hexDigit (n : Nat) : Char :=
  "0123456789abcdef".toList.getD n '0'

/-- `Buffer.prototype.toString("hex")` for one byte: two lowercase hex
digits, high nibble first. -/
def byteToHex (b : Fin 256) : JStr :=
  [hexDigit (b.val / 16), hexDigit (b.val % 16)]

/-- `Buffer.prototype.toString("hex")`: concatenation of the per-byte
encodings. -/
def bytesToHex (bs : List (Fin 256)) : JStr :=
  (bs.map byteToHex).flatten

/-- `generateSecurePassphrase` (lines 73–75): 32 random bytes, hex
encoded, drawn at entropy offset `off`. -/
def generateSecurePassphrase (co : CryptoOracle) (off : Nat) : JStr :=
  bytesToHex (randomBytes co off 32)

/-- `validateKeyPair` (lines 83–98): sign a fresh 32-byte random message
with the private key and passphrase, verify against the public key; any
sign/verify failure or a false verification throws, wrapped by the catch at
line 96. -/
def validateKeyPair (co : CryptoOracle) (publicKey privateKey passphrase : JStr)
    (off : Nat) : Except String Unit :=
  let testMessage := randomBytes co off 32
  match co.signResult privateKey passphrase testMessage with
  | .error e => .error ("Key validation failed: " ++ e)
  | .ok signature =>
    match co.verifyResult publicKey testMessage signature with
    | .error e => .error ("Key validation failed: " ++ e)
    | .ok isValid =>
      if isValid then .ok ()
      else .error ("Key validation failed: " ++ "Key pair validation failed")

/-- The two key types of the generator. -/
inductive KeyType
  | access
  | refresh
deriving DecidableEq

/-- The string used in the error wrapper of `generateRSAKeyPair` (line 65). -/
def KeyType.label : KeyType → String
  | .access => "access"
  | .refresh => "refresh"

/-- `generateRSAKeyPair` (lines 44–67) at entropy offset `off`: generate the
passphrase (32 bytes), derive the pair (consuming `keygenEntropy` bytes),
validate (consuming 32 bytes for the test message); a validation failure is
rethrown wrapped (line 65) and the pair is not returned. Returns the result
together with the next entropy offset. -/
def generateRSAKeyPair (co : CryptoOracle) (kt : KeyType) (off : Nat) :
    Except String KeyPair × Nat :=
  let passphrase := generateSecurePassphrase co off
  let o1 := off + 32
  let publicKey := co.keygenPub o1
  let privateKey := co.keygenPriv o1
  let o2 := o1 + co.keygenEntropy
  let o3 := o2 + 32
  match validateKeyPair co publicKey privateKey passphrase o2 with
  | .error e => (.error (kt.label ++ " key generation failed: " ++ e), o3)
  | .ok _ => (.ok ⟨publicKey, privateKey, passphrase⟩, o3)

/-- The `tokenKeys` construction in `generate` (lines 240–243): the access
pair, then the refresh pair, consuming entropy sequentially from offset 0;
the first failure propagates. -/
def tokenKeysResult (co : CryptoOracle) : Except String TokenKeyPairs :=
  match generateRSAKeyPair co .access 0 with
  | (.error e, _) => .error e
  | (.ok a, off1) =>
    match generateRSAKeyPair co .refresh off1 with
    | (.error e, _) => .error e
    | (.ok r, _) => .ok ⟨a, r⟩

/-! ## Filesystem model

The five files the generator writes, the filesystem state, and an oracle
deciding the outcome of each I/O operation. A failed write leaves the file
unchanged (writes are modelled as atomic). -/

/-- The five files written by `saveKeys`. -/
inductive WriteTarget
  | accessPub
  | accessPriv
  | refreshPub
  | refreshPriv
  | envFile
deriving DecidableEq

/-- The filesystem state visible to the generator. -/
structure FSState where
  dirCreated : Bool
  accessPubFile : Option JStr
  accessPrivFile : Option JStr
  refreshPubFile : Option JStr
  refreshPrivFile : Option JStr
  envFileContent : Option JStr
deriving DecidableEq

/-- Write `c` to the file `t`. -/
def FSState.setFile (fs : FSState) (t : WriteTarget) (c : JStr) : FSState :=
  match t with
  | .accessPub => { fs with accessPubFile := some c }
  | .accessPriv => { fs with accessPrivFile := some c }
  | .refreshPub => { fs with refreshPubFile := some c }
  | .refreshPriv => { fs with refreshPrivFile := some c }
  | .envFile => { fs with envFileContent := some c }

/-- Outcomes of the I/O operations: directory creation, directory chmod,
each write attempt (attempt 0 with the requested mode, attempt 1 the
fallback with default permissions) and its error message on failure, and
readability of the env file. -/
structure IOOracle where
  mkdirOk : Bool
  mkdirErr : String
  chmodOk : Bool
  writeOk : WriteTarget → Fin 2 → Bool
  writeErr : WriteTarget → Fin 2 → String
  readEnvOk : Bool

/-- Observable events of one provisioning run. -/
inductive Ev
  | mkdirCall
  | chmodFail
  | writeAttempt (t : WriteTarget) (attempt : Nat)
  | wrote (t : WriteTarget)
deriving DecidableEq

/-- Result of one step: the thrown error message (if any), the filesystem
state afterwards, and the trace of events. -/
structure StepRes where
  err : Option String
  fs : FSState
  tr : List Ev

/-- Sequencing with exception propagation (`await` chains inside a `try`
block): a raised error skips the remaining steps. -/
def StepRes.andThen (r : StepRes) (f : FSState → StepRes) : StepRes :=
  match r.err with
  | some _ => r
  | none =>
    let r' := f r.fs
    ⟨r'.err, r'.fs, r.tr ++ r'.tr⟩

/-- `writeFileWithFallback` (lines 151–160): try the write with the
requested mode; on any failure retry exactly once with default permissions;
a second failure propagates its own error. -/
def writeFileWithFallback (o : IOOracle) (fs : FSState) (t : WriteTarget)
    (content : JStr) : StepRes :=
  if o.writeOk t 0 then
    ⟨none, fs.setFile t content, [.writeAttempt t 0, .wrote t]⟩
  else if o.writeOk t 1 then
    ⟨none, fs.setFile t content, [.writeAttempt t 0, .writeAttempt t 1, .wrote t]⟩
  else
    ⟨some (o.writeErr t 1), fs, [.writeAttempt t 0, .writeAttempt t 1]⟩

/-- `createSecureKeyDirectory` (lines 103–116): create the directory when
absent (a failure there is rethrown wrapped, line 114); then attempt the
chmod, whose failure is caught and only logged (lines 108–112). -/
def createSecureKeyDirectory (o : IOOracle) (fs : FSState) : StepRes :=
  if fs.dirCreated then
    if o.chmodOk then ⟨none, fs, []⟩ else ⟨none, fs, [.chmodFail]⟩
  else
    if o.mkdirOk then
      let fs' := { fs with dirCreated := true }
      if o.chmodOk then ⟨none, fs', [.mkdirCall]⟩
      else ⟨none, fs', [.mkdirCall, .chmodFail]⟩
    else ⟨some ("Failed to create secure directory: " ++ o.mkdirErr), fs, [.mkdirCall]⟩

/-- `loadExistingEnv` (lines 122–143): parse the env file when present and
readable; an absent file or a read failure yields the empty record (the
failure is caught and only logged). -/
def loadExistingEnv (o : IOOracle) (fs : FSState) : Env :=
  match fs.envFileContent with
  | none => []
  | some c => if o.readEnvOk then parseEnvContent c else []

/-- The first five steps of `saveKeys` (lines 168–180): directory creation,
then the four key files in source order. -/
def saveKeysPre (o : IOOracle) (tk : TokenKeyPairs) (fs : FSState) : StepRes :=
  ((((createSecureKeyDirectory o fs).andThen
      (fun fs1 => writeFileWithFallback o fs1 .accessPub tk.access.publicKey)).andThen
      (fun fs2 => writeFileWithFallback o fs2 .accessPriv tk.access.privateKey)).andThen
      (fun fs3 => writeFileWithFallback o fs3 .refreshPub tk.refresh.publicKey)).andThen
      (fun fs4 => writeFileWithFallback o fs4 .refreshPriv tk.refresh.privateKey)

/-- The body of `saveKeys` (lines 166–209): the five file steps, then the
merged and serialized env file, written last. -/
def saveKeysBody (o : IOOracle) (keyPath : JStr) (tk : TokenKeyPairs)
    (fs : FSState) : StepRes :=
  (saveKeysPre o tk fs).andThen
    (fun fs5 => writeFileWithFallback o fs5 .envFile
      (serializeEnv (mergeEnv (loadExistingEnv o fs5) (newEnvEntries keyPath tk))))

/-- `saveKeys` (lines 166–213): the body with the outer catch wrapping any
error (line 211). -/
def saveKeys (o : IOOracle) (keyPath : JStr) (tk : TokenKeyPairs)
    (fs : FSState) : StepRes :=
  let r := saveKeysBody o keyPath tk fs
  match r.err with
  | some e => ⟨some ("Failed to save keys: " ++ e), r.fs, r.tr⟩
  | none => r

/-- Outcome of the public `generate`: normal completion, or process
termination via `process.exit` with the message logged beforehand. -/
inductive GenOutcome
  | success (fs : FSState) (tr : List Ev)
  | exited (code : Nat) (loggedMsg : String) (fs : FSState) (tr : List Ev)
deriving DecidableEq

/-- `generate` (lines 238–249): build the token keys, save them; any error is
caught, logged with the wrapper of line 246, and the process exits with
code 1 — no error is returned to the caller. -/
def generate (co : CryptoOracle) (o : IOOracle) (keyPath : JStr)
    (fs : FSState) : GenOutcome :=
  match tokenKeysResult co with
  | .error e => .exited 1 ("Error during key generation: " ++ e) fs []
  | .ok tk =>
    let r := saveKeys o keyPath tk fs
    match r.err with
    | some e => .exited 1 ("Error during key generation: " ++ e) r.fs r.tr
    | none => .success r.fs r.tr

/-! ## Concrete fixtures

Concrete oracles and states used to instantiate the theorems below. -/

/-- A crypto oracle on which every operation succeeds. -/
def okCrypto : CryptoOracle where
  stream := fun _ => 0
  keygenEntropy := 7
  keygenPub := fun _ => "PUB".toList
  keygenPriv := fun _ => "PRIV".toList
  signResult := fun _ _ _ => .ok [1]
  verifyResult := fun _ _ _ => .ok true

/-- A crypto oracle whose verification step reports a mismatch. -/
def badVerifyCrypto : CryptoOracle where
  stream := fun _ => 0
  keygenEntropy := 7
  keygenPub := fun _ => "PUB".toList
  keygenPriv := fun _ => "PRIV".toList
  signResult := fun _ _ _ => .ok [1]
  verifyResult := fun _ _ _ => .ok false

/-- An I/O oracle on which every operation succeeds. -/
def okFs : IOOracle where
  mkdirOk := true
  mkdirErr := ""
  chmodOk := true
  writeOk := fun _ _ => true
  writeErr := fun _ _ => ""
  readEnvOk := true

/-- An I/O oracle on which every file-write attempt fails. -/
def failWriteFs : IOOracle where
  mkdirOk := true
  mkdirErr := ""
  chmodOk := true
  writeOk := fun _ _ => false
  writeErr := fun _ _ => "EDQUOT: disk quota exceeded"
  readEnvOk := true

/-- An I/O oracle on which only the directory chmod fails. -/
def chmodFailFs : IOOracle where
  mkdirOk := true
  mkdirErr := ""
  chmodOk := false
  writeOk := fun _ _ => true
  writeErr := fun _ _ => ""
  readEnvOk := true

/-- All write attempts fail; the first attempt reports an error unrelated to
permissions. -/
def missingDirFs : IOOracle where
  mkdirOk := true
  mkdirErr := ""
  chmodOk := true
  writeOk := fun _ _ => false
  writeErr := fun _ a => if a = 0 then "ENOENT: no such file or directory" else "EPERM"
  readEnvOk := true

/-- Same as `missingDirFs` except for the first-attempt error class. -/
def diskFullFs : IOOracle where
  mkdirOk := true
  mkdirErr := ""
  chmodOk := true
  writeOk := fun _ _ => false
  writeErr := fun _ a => if a = 0 then "ENOSPC: no space left on device" else "EPERM"
  readEnvOk := true

/-- An initial filesystem: no key directory, a pre-existing env file. -/
def fs0 : FSState where
  dirCreated := false
  accessPubFile := none
  accessPrivFile := none
  refreshPubFile := none
  refreshPrivFile := none
  envFileContent := some "FOO=\"bar\"".toList

/-- A concrete pair of token key pairs. -/
def tk0 : TokenKeyPairs where
  access := ⟨"APUB".toList, "APRIV".toList, "apass".toList⟩
  refresh := ⟨"RPUB".toList, "RPRIV".toList, "rpass".toList⟩

/-- A concrete key directory path. -/
def kp0 : JStr := "secure-keys".toList

/-! ## Lemmas on environment records -/

theorem envLookup_cons (p : JStr × JStr) (e : Env) (k : JStr) :
    envLookup (p :: e) k = if p.1 == k then some p.2 else envLookup e k := by
  by_cases h : p.1 == k <;> simp [envLookup, List.find?, h]

theorem find?_map_replace (e : Env) (k v k' : JStr) :
    (e.map (fun p => if p.1 = k then (k, v) else p)).find? (fun p => p.1 == k') =
      if k' = k then (e.find? (fun p => p.1 == k)).map (fun _ => (k, v))
      else e.find? (fun p => p.1 == k') := by
  induction e with
  | nil => simp
  | cons p e ih =>
    by_cases hp : p.1 = k
    · by_cases hk : k' = k
      · subst hk; simp [List.find?, hp, ih]
      · have : ¬ (k == k') := by simp [beq_iff_eq]; exact fun h => hk h.symm
        simp [List.find?, hp, this, ih, hk, beq_iff_eq]
    · by_cases hk : k' = k
      · subst hk
        have : ¬ (p.1 == k') := by simp [beq_iff_eq, hp]
        simp [List.find?, if_neg hp, this, ih]
      · by_cases hpk : p.1 = k'
        · simp [List.find?, if_neg hp, hpk, ih, hk]
        · have : ¬ (p.1 == k') := by simp [beq_iff_eq, hpk]
          simp [List.find?, if_neg hp, this, ih, hk]

theorem envLookup_jsInsert (e : Env) (k v k' : JStr) :
    envLookup (jsInsert e k v) k' = if k' = k then some v else envLookup e k' := by
  unfold jsInsert
  by_cases hany : e.any (fun p => p.1 == k)
  · rw [if_pos hany]
    unfold envLookup
    rw [find?_map_replace]
    by_cases hk : k' = k
    · rw [if_pos hk, if_pos hk]
      have : ∃ x ∈ e, x.1 == k := by
        simpa [List.any_eq_true] using hany
      have hs : (e.find? (fun p => p.1 == k)).isSome := List.find?_isSome.2 this
      obtain ⟨q, hq⟩ := Option.isSome_iff_exists.1 hs
      rw [hq]; rfl
    · rw [if_neg hk, if_neg hk]
  · rw [if_neg hany]
    unfold envLookup
    rw [List.find?_append]
    by_cases hk : k' = k
    · subst hk
      have hnone : e.find? (fun p => p.1 == k') = none := by
        rw [List.find?_eq_none]
        intro x hx
        intro hbx
        exact hany (List.any_eq_true.2 ⟨x, hx, hbx⟩)
      simp [hnone, List.find?]
    · have : ¬ ((k, v).1 == k') := by simp [beq_iff_eq]; exact fun h => hk h.symm
      simp [List.find?, this, hk]

theorem envLookup_eq_none_of_not_mem (u : Env) (k : JStr)
    (h : k ∉ u.map Prod.fst) : envLookup u k = none := by
  unfold envLookup
  rw [List.find?_eq_none.2]
  · rfl
  · intro x hx hbx
    exact h (List.mem_map.2 ⟨x, hx, (beq_iff_eq.1 hbx)⟩)

theorem envLookup_mergeEnv_of_none (u : Env) (k : JStr)
    (h : envLookup u k = none) (e : Env) :
    envLookup (mergeEnv e u) k = envLookup e k := by
  induction u generalizing e with
  | nil => rfl
  | cons p u ih =>
    rw [envLookup_cons] at h
    by_cases hpk : p.1 == k
    · simp [hpk] at h
    · rw [if_neg hpk] at h
      have : mergeEnv e (p :: u) = mergeEnv (jsInsert e p.1 p.2) u := rfl
      rw [this, ih h, envLookup_jsInsert,
        if_neg (fun hk => hpk (beq_iff_eq.2 hk.symm))]

theorem envLookup_mergeEnv_of_some (u : Env) (k v : JStr)
    (hnd : (u.map Prod.fst).Nodup) (h : envLookup u k = some v) (e : Env) :
    envLookup (mergeEnv e u) k = some v := by
  induction u generalizing e with
  | nil => simp [envLookup] at h
  | cons p u ih =>
    rw [envLookup_cons] at h
    have hstep : mergeEnv e (p :: u) = mergeEnv (jsInsert e p.1 p.2) u := rfl
    rw [List.map_cons, List.nodup_cons] at hnd
    by_cases hpk : p.1 == k
    · rw [if_pos hpk] at h
      have hk : p.1 = k := beq_iff_eq.1 hpk
      have hnone : envLookup u k = none :=
        envLookup_eq_none_of_not_mem u k (by rw [← hk]; exact hnd.1)
      rw [hstep, envLookup_mergeEnv_of_none u k hnone, envLookup_jsInsert,
        if_pos hk.symm, ← h]
    · rw [if_neg hpk] at h
      rw [hstep, ih hnd.2 h]

theorem newEnvEntries_keys_nodup (keyPath : JStr) (tk : TokenKeyPairs) :
    ((newEnvEntries keyPath tk).map Prod.fst).Nodup := by
  show ([ "ACCESS_TOKEN_PUBLIC_KEY_PATH".toList,
          "ACCESS_TOKEN_PRIVATE_KEY_PATH".toList,
          "ACCESS_TOKEN_PRIVATE_KEY_PASSPHRASE".toList,
          "ACCESS_TOKEN_PUBLIC_KEY".toList,
          "ACCESS_TOKEN_PRIVATE_KEY".toList,
          "REFRESH_TOKEN_PUBLIC_KEY_PATH".toList,
          "REFRESH_TOKEN_PRIVATE_KEY_PATH".toList,
          "REFRESH_TOKEN_PRIVATE_KEY_PASSPHRASE".toList,
          "REFRESH_TOKEN_PUBLIC_KEY".toList,
          "REFRESH_TOKEN_PRIVATE_KEY".toList ] : List JStr).Nodup
  decide

/-! ## Claim C2 -/

/-- C2: merging the ten key-derived update entries into a pre-existing
environment record maps every key of the updates to its updated value, maps
every other pre-existing key to its existing value, and introduces no other
keys. -/
theorem C2_merge_spec (existing : Env) (keyPath : JStr) (tk : TokenKeyPairs) :
    (∀ k v, envLookup (newEnvEntries keyPath tk) k = some v →
        envLookup (mergeEnv existing (newEnvEntries keyPath tk)) k = some v)
    ∧ (∀ k, envLookup (newEnvEntries keyPath tk) k = none →
        envLookup (mergeEnv existing (newEnvEntries keyPath tk)) k = envLookup existing k)
    ∧ (∀ k, envLookup (mergeEnv existing (newEnvEntries keyPath tk)) k ≠ none →
        envLookup (newEnvEntries keyPath tk) k ≠ none ∨ envLookup existing k ≠ none) := by
  refine ⟨?_, ?_, ?_⟩
  · intro k v h
    exact envLookup_mergeEnv_of_some _ k v (newEnvEntries_keys_nodup keyPath tk) h existing
  · intro k h
    exact envLookup_mergeEnv_of_none _ k h existing
  · intro k h
    by_cases hu : envLookup (newEnvEntries keyPath tk) k = none
    · right
      rw [envLookup_mergeEnv_of_none _ k hu existing] at h
      exact h
    · left; exact hu

/-- Witness for C2: a concrete merge. An update key wins, the untouched
pre-existing key `FOO` is preserved, and a fresh key is absent. -/
theorem C2_merge_spec_witness :
    envLookup (mergeEnv [("FOO".toList, "bar".toList),
        ("ACCESS_TOKEN_PUBLIC_KEY".toList, "old".toList)] (newEnvEntries kp0 tk0))
        "ACCESS_TOKEN_PUBLIC_KEY".toList = some "APUB".toList
    ∧ envLookup (mergeEnv [("FOO".toList, "bar".toList),
        ("ACCESS_TOKEN_PUBLIC_KEY".toList, "old".toList)] (newEnvEntries kp0 tk0))
        "FOO".toList = envLookup [("FOO".toList, "bar".toList),
        ("ACCESS_TOKEN_PUBLIC_KEY".toList, "old".toList)] "FOO".toList := by
  constructor
  · exact (C2_merge_spec _ kp0 tk0).1 _ _ (by decide)
  · exact (C2_merge_spec _ kp0 tk0).2.1 _ (by decide)

/-! ## Lemmas on trimming, escaping, and splitting -/

theorem head?_all_dropWhile (p : Char → Bool) (l : List Char) :
    ((l.dropWhile p).head?.all fun c => !p c) = true := by
  induction l with
  | nil => rfl
  | cons a l ih =>
    by_cases h : p a
    · simpa [List.dropWhile_cons, h] using ih
    · simp [List.dropWhile_cons, h]

theorem noWsEdges_jsTrim (s : JStr) : noWsEdges (jsTrim s) = true := by
  unfold jsTrim noWsEdges
  rcases hbe : (s.dropWhile Char.isWhitespace).reverse.dropWhile Char.isWhitespace
    with _ | ⟨c, b⟩
  · simp
  · rw [← hbe, List.head?_reverse, List.getLast?_reverse]
    have h1 := head?_all_dropWhile Char.isWhitespace
      (s.dropWhile Char.isWhitespace).reverse
    have h2 : ((s.dropWhile Char.isWhitespace).reverse.dropWhile
        Char.isWhitespace).getLast? = (s.dropWhile Char.isWhitespace).reverse.getLast? := by
      conv_rhs => rw [← List.takeWhile_append_dropWhile (p := Char.isWhitespace)
        (l := (s.dropWhile Char.isWhitespace).reverse)]
      rw [List.getLast?_append_of_ne_nil _ (by rw [hbe]; exact List.cons_ne_nil _ _)]
    rw [h2, List.getLast?_reverse]
    have h3 := head?_all_dropWhile Char.isWhitespace s
    simp only [Bool.and_eq_true]
    exact ⟨h3, h1⟩

theorem dropWhile_eq_self_of_head (p : Char → Bool) (l : List Char)
    (h : (l.head?.all fun c => !p c) = true) : l.dropWhile p = l := by
  cases l with
  | nil => rfl
  | cons a l =>
    simp only [List.head?_cons, Option.all_some, Bool.not_eq_true'] at h
    simp [List.dropWhile_cons, h]

theorem jsTrim_eq_self (s : JStr) (h : noWsEdges s = true) : jsTrim s = s := by
  unfold noWsEdges at h
  rw [Bool.and_eq_true] at h
  unfold jsTrim
  rw [dropWhile_eq_self_of_head _ _ h.1,
    dropWhile_eq_self_of_head _ _ (by rw [List.head?_reverse]; exact h.2),
    List.reverse_reverse]

theorem jsTrim_idem (s : JStr) : jsTrim (jsTrim s) = jsTrim s :=
  jsTrim_eq_self _ (noWsEdges_jsTrim s)

theorem escNewlines_not_newline (v : JStr) : '\n' ∉ escNewlines v := by
  induction v with
  | nil => simp [escNewlines]
  | cons c cs ih =>
    by_cases h : c = '\n'
    · simp only [escNewlines, if_pos h, List.mem_cons]
      rintro (h1 | h1 | h1) <;> first | exact absurd h1 (by decide) | exact ih h1
    · simp only [escNewlines, if_neg h, List.mem_cons]
      rintro (h1 | h1)
      · exact h h1.symm
      · exact ih h1

theorem splitOn_no_sep {c : Char} {t : JStr} (h : c ∉ t) : t.splitOn c = [t] := by
  simp only [List.splitOn]
  refine List.splitOnP_eq_single _ _ ?_
  intro x hx hbx
  exact h (eq_of_beq hbx ▸ hx)

theorem splitOn_first_sep {c : Char} {k : JStr} (h : c ∉ k) (rest : JStr) :
    (k ++ c :: rest).splitOn c = k :: rest.splitOn c := by
  simp only [List.splitOn]
  refine List.splitOnP_first (fun x => x == c) k ?_ c (beq_self_eq_true c) rest
  intro x hx hbx
  exact h (eq_of_beq hbx ▸ hx)

theorem intercalate_splitOn_self (c : Char) (w : JStr) :
    List.intercalate [c] (w.splitOn c) = w :=
  List.intercalate_splitOn w c

theorem stripQuotes_wrap (e : JStr) : stripQuotes ('"' :: (e ++ ['"'])) = e := by
  unfold stripQuotes
  simp [List.getLast?_concat, List.dropLast_concat]

/-! ## Claim C5 -/

/-- Counterexample to C5 as stated: the non-blank, non-comment line `FOO`
contains no `=` separator, yet it is not ignored — it contributes the entry
`FOO → ""` to the resulting record. -/
theorem C5_counterexample :
    parseEnvContent "FOO".toList = [("FOO".toList, ([] : JStr))]
    ∧ parseEnvContent "FOO".toList ≠ [] := by decide

/-- C5 amended: blank lines and `#`-comment lines are skipped; a remaining
line is split on the first `=`, the key is trimmed and the value is the rest
of the line with one anchored leading/trailing quote removed and then
trimmed; but a non-blank non-comment line with no `=` is not ignored — it
contributes an entry mapping the trimmed line to the empty string — and only
a line whose text before the first `=` is empty contributes nothing. -/
theorem C5_amended_load_rules (line : JStr) (env : Env) :
    (jsTrim line = [] → processEnvLine env line = env)
    ∧ ((jsTrim line).head? = some '#' → processEnvLine env line = env)
    ∧ (jsTrim line ≠ [] → (jsTrim line).head? ≠ some '#' → '=' ∉ jsTrim line →
        processEnvLine env line = jsInsert env (jsTrim line) [])
    ∧ (∀ k rest, jsTrim line = k ++ '=' :: rest → '=' ∉ k → k ≠ [] →
        (jsTrim line).head? ≠ some '#' →
        processEnvLine env line = jsInsert env (jsTrim k) (jsTrim (stripQuotes rest)))
    ∧ (∀ rest, jsTrim line = '=' :: rest → processEnvLine env line = env) := by
  refine ⟨?_, ?_, ?_, ?_, ?_⟩
  · intro h
    simp [processEnvLine, h]
  · intro h
    simp [processEnvLine, h]
  · intro h1 h2 h3
    rw [processEnvLine, if_pos ⟨h1, h2⟩, splitOn_no_sep h3]
    show (if jsTrim line ≠ [] then
        jsInsert env (jsTrim (jsTrim line))
          (jsTrim (stripQuotes (List.intercalate ['='] ([] : List JStr))))
      else env) = jsInsert env (jsTrim line) []
    rw [if_pos h1, jsTrim_idem]
    rfl
  · intro k rest ht hk hke h2
    have h1 : jsTrim line ≠ [] := by
      rw [ht]; exact List.append_ne_nil_of_right_ne_nil _ (List.cons_ne_nil _ _)
    rw [processEnvLine, if_pos ⟨h1, h2⟩, ht, splitOn_first_sep hk]
    show (if k ≠ [] then
        jsInsert env (jsTrim k)
          (jsTrim (stripQuotes (List.intercalate ['='] (rest.splitOn '='))))
      else env) = jsInsert env (jsTrim k) (jsTrim (stripQuotes rest))
    rw [if_pos hke, intercalate_splitOn_self]
  · intro rest ht
    have h1 : jsTrim line ≠ [] := by rw [ht]; exact List.cons_ne_nil _ _
    have h2 : (jsTrim line).head? ≠ some '#' := by rw [ht]; simp
    rw [processEnvLine, if_pos ⟨h1, h2⟩, ht]
    have hsplit : ('=' :: rest).splitOn '=' = [] :: rest.splitOn '=' := by
      simp [List.splitOn, List.splitOnP_cons]
    rw [hsplit]
    show (if ([] : JStr) ≠ [] then
        jsInsert env (jsTrim [])
          (jsTrim (stripQuotes (List.intercalate ['='] (rest.splitOn '='))))
      else env) = env
    rw [if_neg (by simp)]

/-- Witness for C5 amended: the five rules at concrete lines. -/
theorem C5_amended_load_rules_witness :
    processEnvLine [] "   ".toList = []
    ∧ processEnvLine [] "# note".toList = []
    ∧ processEnvLine [] "FOO".toList = jsInsert [] "FOO".toList []
    ∧ processEnvLine [] "A=\"b\"".toList =
        jsInsert [] (jsTrim "A".toList) (jsTrim (stripQuotes "\"b\"".toList))
    ∧ processEnvLine [] "=skip".toList = [] := by
  refine ⟨?_, ?_, ?_, ?_, ?_⟩
  · exact (C5_amended_load_rules _ _).1 (by decide)
  · exact (C5_amended_load_rules _ _).2.1 (by decide)
  · exact (C5_amended_load_rules _ _).2.2.1 (by decide) (by decide) (by decide)
  · exact (C5_amended_load_rules _ _).2.2.2.1 "A".toList "\"b\"".toList
      (by decide) (by decide) (by decide) (by decide)
  · exact (C5_amended_load_rules _ _).2.2.2.2 "skip".toList (by decide)

/-! ## Claim C3 -/

/-- Counterexample to C3 as stated: for the record `K → "a\nb"`, loading the
serialization yields the two-character sequence backslash-n where the
original had a newline — `loadExistingEnv` never reverses the escaping
performed by `saveKeys`. -/
theorem C3_counterexample :
    parseEnvContent (serializeEnv [("K".toList, "a\nb".toList)]) =
      [("K".toList, "a\\nb".toList)]
    ∧ parseEnvContent (serializeEnv [("K".toList, "a\nb".toList)]) ≠
      [("K".toList, "a\nb".toList)] := by decide

theorem processEnvLine_render (env : Env) (k v : JStr) (hk : GoodKey k)
    (hv : GoodVal v) :
    processEnvLine env (renderEnvLine (k, v)) = jsInsert env k (escNewlines v) := by
  obtain ⟨hne, _, hkeq, hh, hws⟩ := hk
  have hline : renderEnvLine (k, v) =
      k ++ '=' :: '"' :: (escNewlines v ++ ['"']) := rfl
  have hhead : (renderEnvLine (k, v)).head? = k.head? := by
    rw [hline, List.head?_append_of_ne_nil _ hne]
  have hlast : (renderEnvLine (k, v)).getLast? = some '"' := by
    rw [hline, show k ++ '=' :: '"' :: (escNewlines v ++ ['"']) =
      (k ++ '=' :: '"' :: escNewlines v) ++ ['"'] by simp, List.getLast?_concat]
  have hedges : noWsEdges (renderEnvLine (k, v)) = true := by
    rw [noWsEdges, hhead, hlast, Bool.and_eq_true]
    rw [noWsEdges, Bool.and_eq_true] at hws
    exact ⟨hws.1, by decide⟩
  have htrim : jsTrim (renderEnvLine (k, v)) = renderEnvLine (k, v) :=
    jsTrim_eq_self _ hedges
  have h1 : jsTrim (renderEnvLine (k, v)) ≠ [] := by
    rw [htrim, hline]
    exact List.append_ne_nil_of_right_ne_nil _ (List.cons_ne_nil _ _)
  have h2 : (jsTrim (renderEnvLine (k, v))).head? ≠ some '#' := by
    rw [htrim, hhead]; exact hh
  rw [processEnvLine, if_pos ⟨h1, h2⟩, htrim, hline, splitOn_first_sep hkeq]
  show (if k ≠ [] then
      jsInsert env (jsTrim k)
        (jsTrim (stripQuotes (List.intercalate ['=']
          (('"' :: (escNewlines v ++ ['"'])).splitOn '='))))
    else env) = jsInsert env k (escNewlines v)
  rw [if_pos hne, intercalate_splitOn_self, stripQuotes_wrap,
    jsTrim_eq_self _ hv, jsTrim_eq_self _ hws]

theorem mem_renderEnvLine_newline (k v : JStr) (hk : '\n' ∉ k) :
    '\n' ∉ renderEnvLine (k, v) := by
  intro h
  rw [renderEnvLine] at h
  simp only [List.mem_append, List.mem_cons, List.mem_singleton,
    List.not_mem_nil, or_false] at h
  rcases h with h | h | h | h | h
  · exact hk h
  · exact absurd h (by decide)
  · exact absurd h (by decide)
  · exact escNewlines_not_newline v h
  · exact absurd h (by decide)

theorem jsInsert_of_not_key (e : Env) (k v : JStr)
    (h : e.any (fun p => p.1 == k) = false) : jsInsert e k v = e ++ [(k, v)] := by
  rw [jsInsert, if_neg (by rw [h]; exact Bool.false_ne_true)]

theorem foldl_processEnvLine_render (r : Env) :
    ∀ env : Env, (∀ p ∈ r, GoodKey p.1) → (∀ p ∈ r, GoodVal p.2) →
    (r.map Prod.fst).Nodup →
    (∀ p ∈ r, env.any (fun q => q.1 == p.1) = false) →
    (r.map renderEnvLine).foldl processEnvLine env =
      env ++ r.map (fun p => (p.1, escNewlines p.2)) := by
  induction r with
  | nil => intro env _ _ _ _; simp
  | cons p r ih =>
    intro env hk hv hnd hdisj
    obtain ⟨k, v⟩ := p
    rw [List.map_cons, List.foldl_cons,
      processEnvLine_render env k v (hk _ (List.mem_cons_self _ _))
        (hv _ (List.mem_cons_self _ _)),
      jsInsert_of_not_key env k _ (hdisj _ (List.mem_cons_self _ _))]
    rw [List.map_cons, List.nodup_cons] at hnd
    rw [ih (env ++ [(k, escNewlines v)])
      (fun q hq => hk q (List.mem_cons_of_mem _ hq))
      (fun q hq => hv q (List.mem_cons_of_mem _ hq)) hnd.2 ?_]
    · simp
    · intro q hq
      rw [List.any_append, Bool.or_eq_false_iff]
      refine ⟨hdisj q (List.mem_cons_of_mem _ hq), ?_⟩
      simp only [List.any_cons, List.any_nil, Bool.or_false]
      rw [beq_eq_false_iff_ne]
      intro hkq
      exact hnd.1 (hkq ▸ List.mem_map.2 ⟨q, hq, rfl⟩)

/-- C3 amended: `serialize` escapes each literal newline in a value to the
two-character sequence backslash-n, but `load` does not invert this
transform; for every record with well-formed keys (nonempty, no newline or
`=`, not beginning with `#`, no surrounding whitespace, no duplicates) and
values whose escaped form has no surrounding whitespace, loading the
serialization reproduces the record with each newline in a value replaced by
the two-character sequence backslash-n. -/
theorem C3_amended_roundtrip (r : Env) (hk : ∀ p ∈ r, GoodKey p.1)
    (hv : ∀ p ∈ r, GoodVal p.2) (hnd : (r.map Prod.fst).Nodup) :
    parseEnvContent (serializeEnv r) = r.map (fun p => (p.1, escNewlines p.2)) := by
  cases r with
  | nil => decide
  | cons p r =>
    rw [parseEnvContent, serializeEnv,
      List.splitOn_intercalate ((p :: r).map renderEnvLine) '\n' ?_ ?_]
    · exact foldl_processEnvLine_render (p :: r) [] hk hv hnd (by simp)
    · intro l hl
      obtain ⟨q, hq, hrender⟩ := List.mem_map.1 hl
      obtain ⟨k, v⟩ := q
      exact hrender ▸ mem_renderEnvLine_newline k v (hk _ hq).2.1
    · simp

/-- Witness for C3 amended: a concrete record with an embedded newline. -/
theorem C3_amended_roundtrip_witness :
    parseEnvContent (serializeEnv [("KEY".toList, "a\nb".toList)]) =
      [("KEY".toList, "a\\nb".toList)] :=
  C3_amended_roundtrip [("KEY".toList, "a\nb".toList)]
    (by decide) (by decide) (by decide)

/-! ## Lemmas on key generation -/

theorem generateRSAKeyPair_ok (co : CryptoOracle) (kt : KeyType) (off : Nat)
    (pair : KeyPair) (off' : Nat)
    (h : generateRSAKeyPair co kt off = (.ok pair, off')) :
    pair = ⟨co.keygenPub (off + 32), co.keygenPriv (off + 32),
      generateSecurePassphrase co off⟩
    ∧ off' = off + 32 + co.keygenEntropy + 32 := by
  simp only [generateRSAKeyPair] at h
  cases hv : validateKeyPair co (co.keygenPub (off + 32)) (co.keygenPriv (off + 32))
      (generateSecurePassphrase co off) (off + 32 + co.keygenEntropy) with
  | error e => rw [hv] at h; simp at h
  | ok u =>
    rw [hv] at h
    simp only [Prod.mk.injEq, Except.ok.injEq] at h
    exact ⟨h.1.symm, h.2.symm⟩

theorem bytesToHex_cons (b : Fin 256) (bs : List (Fin 256)) :
    bytesToHex (b :: bs) = byteToHex b ++ bytesToHex bs := by
  simp [bytesToHex]

theorem bytesToHex_length (bs : List (Fin 256)) :
    (bytesToHex bs).length = 2 * bs.length := by
  induction bs with
  | nil => rfl
  | cons b bs ih =>
    rw [bytesToHex_cons, List.length_append, ih]
    simp [byteToHex]
    ring

theorem hexDigit_mem (n : Nat) (h : n < 16) :
    hexDigit n ∈ "0123456789abcdef".toList := by
  revert h
  revert n
  decide

theorem mem_byteToHex (b : Fin 256) (c : Char) (hc : c ∈ byteToHex b) :
    c ∈ "0123456789abcdef".toList := by
  rw [byteToHex] at hc
  simp only [List.mem_cons, List.not_mem_nil, or_false] at hc
  rcases hc with hc | hc
  · exact hc ▸ hexDigit_mem _ (Nat.div_lt_of_lt_mul (by omega))
  · exact hc ▸ hexDigit_mem _ (Nat.mod_lt _ (by norm_num))

theorem mem_bytesToHex (bs : List (Fin 256)) :
    ∀ c ∈ bytesToHex bs, c ∈ "0123456789abcdef".toList := by
  induction bs with
  | nil => intro c hc; simp [bytesToHex] at hc
  | cons b bs ih =>
    intro c hc
    rw [bytesToHex_cons] at hc
    rcases List.mem_append.1 hc with hc | hc
    · exact mem_byteToHex b c hc
    · exact ih c hc

theorem hexDigit_inj (m n : Nat) (hm : m < 16) (hn : n < 16)
    (h : hexDigit m = hexDigit n) : m = n := by
  revert h hn
  revert n
  revert hm
  revert m
  decide

theorem byteToHex_inj (b1 b2 : Fin 256) (h : byteToHex b1 = byteToHex b2) :
    b1 = b2 := by
  simp only [byteToHex, List.cons.injEq, and_true] at h
  have h1 : b1.val / 16 = b2.val / 16 :=
    hexDigit_inj _ _ (Nat.div_lt_of_lt_mul (by omega)) (Nat.div_lt_of_lt_mul (by omega)) h.1
  have h2 : b1.val % 16 = b2.val % 16 :=
    hexDigit_inj _ _ (Nat.mod_lt _ (by norm_num)) (Nat.mod_lt _ (by norm_num)) h.2
  apply Fin.ext
  calc b1.val = 16 * (b1.val / 16) + b1.val % 16 := (Nat.div_add_mod _ _).symm
    _ = 16 * (b2.val / 16) + b2.val % 16 := by rw [h1, h2]
    _ = b2.val := Nat.div_add_mod _ _

theorem bytesToHex_inj (bs1 bs2 : List (Fin 256))
    (h : bytesToHex bs1 = bytesToHex bs2) : bs1 = bs2 := by
  induction bs1 generalizing bs2 with
  | nil =>
    cases bs2 with
    | nil => rfl
    | cons b bs => rw [bytesToHex_cons] at h; simp [bytesToHex, byteToHex] at h
  | cons b bs ih =>
    cases bs2 with
    | nil => rw [bytesToHex_cons] at h; simp [bytesToHex, byteToHex] at h
    | cons b2 bs2 =>
      rw [bytesToHex_cons, bytesToHex_cons] at h
      simp only [byteToHex, List.cons_append, List.nil_append, List.cons.injEq] at h
      obtain ⟨ha, hb, ht⟩ := h
      rw [ih bs2 ht, byteToHex_inj b b2 (by simp [byteToHex, ha, hb])]

/-! ## Claim C1 -/

/-- C1: whenever `generateRSAKeyPair` returns a pair, the validation of that
very pair (signing a fresh random message with the private key and
passphrase and verifying against the public key) succeeded; on a
verification mismatch or a sign/verify failure the generator throws and the
pair is never returned. -/
theorem C1_validated_pairs_only (co : CryptoOracle) (kt : KeyType) (off : Nat)
    (pair : KeyPair) (off' : Nat)
    (h : generateRSAKeyPair co kt off = (.ok pair, off')) :
    validateKeyPair co pair.publicKey pair.privateKey pair.passphrase
      (off + 32 + co.keygenEntropy) = .ok ()
    ∧ (∀ e, validateKeyPair co pair.publicKey pair.privateKey pair.passphrase
        (off + 32 + co.keygenEntropy) = .error e → False) := by
  obtain ⟨hpair, _⟩ := generateRSAKeyPair_ok co kt off pair off' h
  subst hpair
  simp only [generateRSAKeyPair] at h
  cases hv : validateKeyPair co (co.keygenPub (off + 32)) (co.keygenPriv (off + 32))
      (generateSecurePassphrase co off) (off + 32 + co.keygenEntropy) with
  | error e => rw [hv] at h; simp at h
  | ok u =>
    cases u
    exact ⟨rfl, fun e he => Except.noConfusion he⟩

/-- Witness for C1: the all-success oracle. -/
theorem C1_validated_pairs_only_witness :
    validateKeyPair okCrypto "PUB".toList "PRIV".toList (List.replicate 64 '0')
      (0 + 32 + okCrypto.keygenEntropy) = .ok () :=
  (C1_validated_pairs_only okCrypto .access 0
    ⟨"PUB".toList, "PRIV".toList, List.replicate 64 '0'⟩ 71 rfl).1

/-! ## Claim C9 -/

/-- C9: each passphrase is the lowercase-hex encoding (64 characters) of a
fresh 32-byte draw from the entropy stream; the encoding is injective (so it
carries exactly those 32 bytes); and within one run the access and refresh
passphrases come from two draws at disjoint stream positions, one per
generation call. -/
theorem C9_passphrase_spec (co : CryptoOracle) (a r : KeyPair)
    (h : tokenKeysResult co = .ok ⟨a, r⟩) :
    a.passphrase = bytesToHex ((List.range 32).map fun i => co.stream (0 + i))
    ∧ r.passphrase = bytesToHex ((List.range 32).map fun i =>
        co.stream (0 + 32 + co.keygenEntropy + 32 + i))
    ∧ a.passphrase.length = 64
    ∧ r.passphrase.length = 64
    ∧ (∀ c ∈ a.passphrase, c ∈ "0123456789abcdef".toList)
    ∧ (∀ c ∈ r.passphrase, c ∈ "0123456789abcdef".toList)
    ∧ (∀ bs1 bs2 : List (Fin 256), bytesToHex bs1 = bytesToHex bs2 → bs1 = bs2)
    ∧ (∀ i j : Nat, i < 32 → j < 32 →
        0 + i ≠ 0 + 32 + co.keygenEntropy + 32 + j) := by
  unfold tokenKeysResult at h
  split at h
  next e1 x1 heq1 => exact Except.noConfusion h
  next a1 off1 heq1 =>
  split at h
  next e2 x2 heq2 => exact Except.noConfusion h
  next r2 off2 heq2 =>
  simp only [Except.ok.injEq, TokenKeyPairs.mk.injEq] at h
  obtain ⟨ha1, hr2⟩ := h
  obtain ⟨hpair1, hoff1⟩ := generateRSAKeyPair_ok co .access 0 a1 off1 heq1
  obtain ⟨hpair2, _⟩ := generateRSAKeyPair_ok co .refresh off1 r2 off2 heq2
  have hap : a.passphrase = generateSecurePassphrase co 0 := by
    rw [← ha1, hpair1]
  have hrp : r.passphrase =
      generateSecurePassphrase co (0 + 32 + co.keygenEntropy + 32) := by
    rw [← hr2, hpair2, hoff1]
  have hlen : ∀ off : Nat, (generateSecurePassphrase co off).length = 64 := by
    intro off
    rw [generateSecurePassphrase, bytesToHex_length]
    simp [randomBytes]
  have hmem : ∀ off : Nat, ∀ c ∈ generateSecurePassphrase co off,
      c ∈ "0123456789abcdef".toList := by
    intro off c hc
    exact mem_bytesToHex _ c hc
  refine ⟨hap, hrp, ?_, ?_, ?_, ?_, bytesToHex_inj, ?_⟩
  · rw [hap]; exact hlen 0
  · rw [hrp]; exact hlen _
  · rw [hap]; exact hmem 0
  · rw [hrp]; exact hmem _
  · intro i j hi _; omega

/-- Witness for C9: the all-success oracle, whose passphrases are 64 zero
digits drawn at offsets 0 and 71. -/
theorem C9_passphrase_spec_witness :
    (⟨"PUB".toList, "PRIV".toList, List.replicate 64 '0'⟩ : KeyPair).passphrase.length
      = 64 :=
  (C9_passphrase_spec okCrypto
    ⟨"PUB".toList, "PRIV".toList, List.replicate 64 '0'⟩
    ⟨"PUB".toList, "PRIV".toList, List.replicate 64 '0'⟩ rfl).2.2.1

/-! ## Lemmas on the persistence steps -/

theorem andThen_err_some (r : StepRes) (f : FSState → StepRes) (e : String)
    (h : r.err = some e) : r.andThen f = r := by
  obtain ⟨err, fs, tr⟩ := r
  cases err with
  | none => exact Option.noConfusion h
  | some e' => rfl

theorem andThen_of_none (r : StepRes) (f : FSState → StepRes)
    (h : r.err = none) :
    r.andThen f = ⟨(f r.fs).err, (f r.fs).fs, r.tr ++ (f r.fs).tr⟩ := by
  obtain ⟨err, fs, tr⟩ := r
  cases err with
  | none => rfl
  | some e' => exact Option.noConfusion h

theorem andThen_tr_of_none (r : StepRes) (f : FSState → StepRes)
    (h : r.err = none) : (r.andThen f).tr = r.tr ++ (f r.fs).tr := by
  obtain ⟨err, fs, tr⟩ := r
  cases err with
  | none => rfl
  | some e' => exact Option.noConfusion h

theorem andThen_err_none_parts (r : StepRes) (f : FSState → StepRes)
    (h : (r.andThen f).err = none) :
    r.err = none ∧ (f r.fs).err = none := by
  obtain ⟨err, fs, tr⟩ := r
  cases err with
  | none => exact ⟨rfl, h⟩
  | some e' => exact Option.noConfusion h

theorem andThen_not_mem (r : StepRes) (f : FSState → StepRes) (x : Ev)
    (hr : x ∉ r.tr) (hf : ∀ fs', x ∉ (f fs').tr) : x ∉ (r.andThen f).tr := by
  obtain ⟨err, fs, tr⟩ := r
  cases err with
  | none =>
    intro hm
    rcases List.mem_append.1 hm with hm | hm
    · exact hr hm
    · exact hf fs hm
  | some e' => exact hr

theorem andThen_env_pres (r : StepRes) (f : FSState → StepRes) (x : Option JStr)
    (hr : r.fs.envFileContent = x)
    (hf : ∀ fs', (f fs').fs.envFileContent = fs'.envFileContent) :
    (r.andThen f).fs.envFileContent = x := by
  obtain ⟨err, fs, tr⟩ := r
  cases err with
  | none => rw [StepRes.andThen]; exact (hf fs).trans hr
  | some e' => exact hr

theorem setFile_envFileContent (fs : FSState) (t : WriteTarget) (c : JStr)
    (h : t ≠ .envFile) : (fs.setFile t c).envFileContent = fs.envFileContent := by
  cases t
  case envFile => exact absurd rfl h
  all_goals rfl

theorem wfwf_envFileContent (o : IOOracle) (fs : FSState) (t : WriteTarget)
    (c : JStr) (h : t ≠ .envFile) :
    (writeFileWithFallback o fs t c).fs.envFileContent = fs.envFileContent := by
  unfold writeFileWithFallback
  split
  · exact setFile_envFileContent fs t c h
  · split
    · exact setFile_envFileContent fs t c h
    · rfl

theorem wfwf_first_ok (o : IOOracle) (fs : FSState) (t : WriteTarget) (c : JStr)
    (h : o.writeOk t 0 = true) :
    writeFileWithFallback o fs t c =
      ⟨none, fs.setFile t c, [.writeAttempt t 0, .wrote t]⟩ := by
  simp [writeFileWithFallback, h]

theorem wfwf_both_fail (o : IOOracle) (fs : FSState) (t : WriteTarget) (c : JStr)
    (h0 : o.writeOk t 0 = false) (h1 : o.writeOk t 1 = false) :
    writeFileWithFallback o fs t c =
      ⟨some (o.writeErr t 1), fs, [.writeAttempt t 0, .writeAttempt t 1]⟩ := by
  simp [writeFileWithFallback, h0, h1]

theorem wfwf_err_cases (o : IOOracle) (fs : FSState) (t : WriteTarget) (c : JStr) :
    (writeFileWithFallback o fs t c).err = none ∨
    ((writeFileWithFallback o fs t c).err = some (o.writeErr t 1)
      ∧ (writeFileWithFallback o fs t c).fs = fs) := by
  unfold writeFileWithFallback
  split
  · exact Or.inl rfl
  · split
    · exact Or.inl rfl
    · exact Or.inr ⟨rfl, rfl⟩

theorem wfwf_tr_shape (o : IOOracle) (fs : FSState) (t : WriteTarget) (c : JStr) :
    ((writeFileWithFallback o fs t c).tr = [.writeAttempt t 0, .wrote t]
      ∧ (writeFileWithFallback o fs t c).err = none)
    ∨ ((writeFileWithFallback o fs t c).tr =
        [.writeAttempt t 0, .writeAttempt t 1, .wrote t]
      ∧ (writeFileWithFallback o fs t c).err = none)
    ∨ ((writeFileWithFallback o fs t c).tr =
        [.writeAttempt t 0, .writeAttempt t 1]
      ∧ (writeFileWithFallback o fs t c).err = some (o.writeErr t 1)) := by
  unfold writeFileWithFallback
  split
  · exact Or.inl ⟨rfl, rfl⟩
  · split
    · exact Or.inr (Or.inl ⟨rfl, rfl⟩)
    · exact Or.inr (Or.inr ⟨rfl, rfl⟩)

theorem wfwf_wrote_mem (o : IOOracle) (fs : FSState) (t : WriteTarget) (c : JStr)
    (h : (writeFileWithFallback o fs t c).err = none) :
    Ev.wrote t ∈ (writeFileWithFallback o fs t c).tr := by
  rcases wfwf_tr_shape o fs t c with ⟨ht, _⟩ | ⟨ht, _⟩ | ⟨_, he⟩
  · rw [ht]; simp
  · rw [ht]; simp
  · rw [he] at h; exact Option.noConfusion h

theorem wrote_env_not_mem_wfwf (o : IOOracle) (fs : FSState) (t : WriteTarget)
    (c : JStr) (h : t ≠ .envFile) :
    Ev.wrote .envFile ∉ (writeFileWithFallback o fs t c).tr := by
  intro hm
  rcases wfwf_tr_shape o fs t c with ⟨ht, _⟩ | ⟨ht, _⟩ | ⟨ht, _⟩ <;>
    rw [ht] at hm <;> simp at hm <;> exact h hm.symm

theorem csd_envFileContent (o : IOOracle) (fs : FSState) :
    (createSecureKeyDirectory o fs).fs.envFileContent = fs.envFileContent := by
  unfold createSecureKeyDirectory
  split
  · split <;> rfl
  · split
    · split <;> rfl
    · rfl

theorem csd_err_none (o : IOOracle) (fs : FSState) (h : o.mkdirOk = true) :
    (createSecureKeyDirectory o fs).err = none := by
  cases hd : fs.dirCreated <;> cases hc : o.chmodOk <;>
    simp [createSecureKeyDirectory, h, hd, hc]

theorem wrote_env_not_mem_csd (o : IOOracle) (fs : FSState) :
    Ev.wrote .envFile ∉ (createSecureKeyDirectory o fs).tr := by
  unfold createSecureKeyDirectory
  split
  · split <;> simp
  · split
    · split <;> simp
    · simp

theorem saveKeysPre_envFileContent (o : IOOracle) (tk : TokenKeyPairs)
    (fs : FSState) :
    (saveKeysPre o tk fs).fs.envFileContent = fs.envFileContent := by
  unfold saveKeysPre
  refine andThen_env_pres _ _ _ (andThen_env_pres _ _ _ (andThen_env_pres _ _ _
    (andThen_env_pres _ _ _ (csd_envFileContent o fs) ?_) ?_) ?_) ?_ <;>
    intro fs' <;> exact wfwf_envFileContent o fs' _ _ (by decide)

theorem wrote_env_not_mem_saveKeysPre (o : IOOracle) (tk : TokenKeyPairs)
    (fs : FSState) :
    Ev.wrote .envFile ∉ (saveKeysPre o tk fs).tr := by
  unfold saveKeysPre
  refine andThen_not_mem _ _ _ (andThen_not_mem _ _ _ (andThen_not_mem _ _ _
    (andThen_not_mem _ _ _ (wrote_env_not_mem_csd o fs) ?_) ?_) ?_) ?_ <;>
    intro fs' <;> exact wrote_env_not_mem_wfwf o fs' _ _ (by decide)

theorem saveKeysPre_err_none_wrotes (o : IOOracle) (tk : TokenKeyPairs)
    (fs : FSState) (h : (saveKeysPre o tk fs).err = none) :
    ∀ t, t ≠ WriteTarget.envFile → Ev.wrote t ∈ (saveKeysPre o tk fs).tr := by
  unfold saveKeysPre at h ⊢
  obtain ⟨h4, hw5⟩ := andThen_err_none_parts _ _ h
  obtain ⟨h3, hw4⟩ := andThen_err_none_parts _ _ h4
  obtain ⟨h2, hw3⟩ := andThen_err_none_parts _ _ h3
  obtain ⟨h1, hw2⟩ := andThen_err_none_parts _ _ h2
  rw [andThen_tr_of_none _ _ h4, andThen_tr_of_none _ _ h3,
    andThen_tr_of_none _ _ h2, andThen_tr_of_none _ _ h1]
  intro t ht
  cases t
  case envFile => exact absurd rfl ht
  case accessPub =>
    exact List.mem_append_left _ (List.mem_append_left _ (List.mem_append_left _
      (List.mem_append_right _ (wfwf_wrote_mem _ _ _ _ hw2))))
  case accessPriv =>
    exact List.mem_append_left _ (List.mem_append_left _
      (List.mem_append_right _ (wfwf_wrote_mem _ _ _ _ hw3)))
  case refreshPub =>
    exact List.mem_append_left _ (List.mem_append_right _
      (wfwf_wrote_mem _ _ _ _ hw4))
  case refreshPriv => exact List.mem_append_right _ (wfwf_wrote_mem _ _ _ _ hw5)

theorem saveKeys_parts (o : IOOracle) (keyPath : JStr) (tk : TokenKeyPairs)
    (fs : FSState) :
    (saveKeys o keyPath tk fs).fs = (saveKeysBody o keyPath tk fs).fs
    ∧ (saveKeys o keyPath tk fs).tr = (saveKeysBody o keyPath tk fs).tr
    ∧ ((saveKeys o keyPath tk fs).err.isSome ↔
        (saveKeysBody o keyPath tk fs).err.isSome) := by
  simp only [saveKeys]
  cases hb : (saveKeysBody o keyPath tk fs).err with
  | none => exact ⟨rfl, rfl, by simp [hb]⟩
  | some e => exact ⟨rfl, rfl, by simp⟩

/-! ## Claim C4 -/

/-- C4: the environment file is written strictly after all four key files —
when the env-file write event occurs in the trace it is the last event, with
the four key-file write events strictly before it — and any failing run
leaves the environment-file content exactly as it was before the run. -/
theorem C4_env_write_last (o : IOOracle) (keyPath : JStr) (tk : TokenKeyPairs)
    (fs : FSState) :
    ((saveKeys o keyPath tk fs).err.isSome →
      (saveKeys o keyPath tk fs).fs.envFileContent = fs.envFileContent)
    ∧ (Ev.wrote .envFile ∈ (saveKeys o keyPath tk fs).tr →
      ∃ pre, (saveKeys o keyPath tk fs).tr = pre ++ [Ev.wrote .envFile]
        ∧ ∀ t, t ≠ WriteTarget.envFile → Ev.wrote t ∈ pre) := by
  obtain ⟨hfs, htr, herr⟩ := saveKeys_parts o keyPath tk fs
  constructor
  · intro h
    rw [hfs]
    replace h := herr.1 h
    unfold saveKeysBody at h ⊢
    cases hp : (saveKeysPre o tk fs).err with
    | some e =>
      rw [andThen_err_some _ _ e hp]
      exact saveKeysPre_envFileContent o tk fs
    | none =>
      rw [andThen_of_none _ _ hp] at h ⊢
      simp only at h ⊢
      rcases wfwf_err_cases o (saveKeysPre o tk fs).fs .envFile
          (serializeEnv (mergeEnv (loadExistingEnv o (saveKeysPre o tk fs).fs)
            (newEnvEntries keyPath tk))) with hc | ⟨_, hc⟩
      · rw [hc] at h; simp at h
      · rw [hc]
        exact saveKeysPre_envFileContent o tk fs
  · intro h
    rw [htr] at h ⊢
    unfold saveKeysBody at h ⊢
    cases hp : (saveKeysPre o tk fs).err with
    | some e =>
      rw [andThen_err_some _ _ e hp] at h
      exact absurd h (wrote_env_not_mem_saveKeysPre o tk fs)
    | none =>
      rw [andThen_of_none _ _ hp] at h ⊢
      simp only at h ⊢
      rcases List.mem_append.1 h with h | h
      · exact absurd h (wrote_env_not_mem_saveKeysPre o tk fs)
      · rcases wfwf_tr_shape o (saveKeysPre o tk fs).fs .envFile
            (serializeEnv (mergeEnv (loadExistingEnv o (saveKeysPre o tk fs).fs)
              (newEnvEntries keyPath tk))) with ⟨ht, he⟩ | ⟨ht, he⟩ | ⟨ht, _⟩
        · refine ⟨(saveKeysPre o tk fs).tr ++ [Ev.writeAttempt .envFile 0], ?_, ?_⟩
          · rw [ht]; simp
          · intro t hne
            exact List.mem_append_left _
              (saveKeysPre_err_none_wrotes o tk fs hp t hne)
        · refine ⟨(saveKeysPre o tk fs).tr ++
            [Ev.writeAttempt .envFile 0, Ev.writeAttempt .envFile 1], ?_, ?_⟩
          · rw [ht]; simp
          · intro t hne
            exact List.mem_append_left _
              (saveKeysPre_err_none_wrotes o tk fs hp t hne)
        · rw [ht] at h; simp at h

/-- Witness for C4: with all writes failing the env file is untouched; with
all operations succeeding the env-write event closes the trace after the
four key writes. -/
theorem C4_env_write_last_witness :
    (saveKeys failWriteFs kp0 tk0 fs0).fs.envFileContent = fs0.envFileContent
    ∧ ∃ pre, (saveKeys okFs kp0 tk0 fs0).tr = pre ++ [Ev.wrote .envFile]
        ∧ ∀ t, t ≠ WriteTarget.envFile → Ev.wrote t ∈ pre := by
  constructor
  · exact (C4_env_write_last failWriteFs kp0 tk0 fs0).1 (by decide)
  · exact (C4_env_write_last okFs kp0 tk0 fs0).2 (by decide)

theorem saveKeys_err_of_body (o : IOOracle) (keyPath : JStr) (tk : TokenKeyPairs)
    (fs : FSState) (e : String) (h : (saveKeysBody o keyPath tk fs).err = some e) :
    (saveKeys o keyPath tk fs).err = some ("Failed to save keys: " ++ e) := by
  simp only [saveKeys, h]

theorem saveKeys_abort_first_write (o : IOOracle) (keyPath : JStr)
    (tk : TokenKeyPairs) (fs : FSState) (hmk : o.mkdirOk = true)
    (h0 : o.writeOk .accessPub 0 = false) (h1 : o.writeOk .accessPub 1 = false) :
    (saveKeys o keyPath tk fs).err =
      some ("Failed to save keys: " ++ o.writeErr .accessPub 1) := by
  have hcsd := csd_err_none o fs hmk
  have hB : ((createSecureKeyDirectory o fs).andThen
      (fun fs1 => writeFileWithFallback o fs1 .accessPub tk.access.publicKey)).err =
      some (o.writeErr .accessPub 1) := by
    rw [andThen_of_none _ _ hcsd, wfwf_both_fail o _ _ _ h0 h1]
  apply saveKeys_err_of_body
  unfold saveKeysBody saveKeysPre
  have hCeq := andThen_err_some _
    (fun fs2 => writeFileWithFallback o fs2 .accessPriv tk.access.privateKey) _ hB
  rw [hCeq]
  have hDeq := andThen_err_some _
    (fun fs3 => writeFileWithFallback o fs3 .refreshPub tk.refresh.publicKey) _ hB
  rw [hDeq]
  have hEeq := andThen_err_some _
    (fun fs4 => writeFileWithFallback o fs4 .refreshPriv tk.refresh.privateKey) _ hB
  rw [hEeq]
  rw [andThen_err_some _ _ _ hB]
  exact hB

/-! ## Claim C7 -/

/-- C7: when the first write attempt fails, exactly one retry with default
permissions is performed; a successful retry makes the operation succeed, a
failed retry propagates the second attempt's error, at most two attempts
ever occur, and a doubly-failed write aborts the whole `saveKeys` run with
the wrapped error. -/
theorem C7_write_fallback (o : IOOracle) (fs : FSState) (t : WriteTarget)
    (c : JStr) :
    (o.writeOk t 0 = false →
      Ev.writeAttempt t 1 ∈ (writeFileWithFallback o fs t c).tr)
    ∧ (o.writeOk t 0 = false → o.writeOk t 1 = true →
      (writeFileWithFallback o fs t c).err = none)
    ∧ (o.writeOk t 0 = false → o.writeOk t 1 = false →
      (writeFileWithFallback o fs t c).err = some (o.writeErr t 1))
    ∧ ((writeFileWithFallback o fs t c).tr.countP
        (fun e => match e with | .writeAttempt _ _ => true | _ => false) ≤ 2)
    ∧ (∀ keyPath tk fs0, o.mkdirOk = true →
      o.writeOk .accessPub 0 = false → o.writeOk .accessPub 1 = false →
      (saveKeys o keyPath tk fs0).err =
        some ("Failed to save keys: " ++ o.writeErr .accessPub 1)) := by
  refine ⟨?_, ?_, ?_, ?_, ?_⟩
  · intro h0
    cases h1 : o.writeOk t 1 with
    | true => simp [writeFileWithFallback, h0, h1]
    | false => rw [wfwf_both_fail o fs t c h0 h1]; simp
  · intro h0 h1
    simp [writeFileWithFallback, h0, h1]
  · intro h0 h1
    rw [wfwf_both_fail o fs t c h0 h1]
  · rcases wfwf_tr_shape o fs t c with ⟨ht, _⟩ | ⟨ht, _⟩ | ⟨ht, _⟩ <;>
      rw [ht] <;> simp [List.countP_cons]
  · intro keyPath tk fs0 hmk h0 h1
    exact saveKeys_abort_first_write o keyPath tk fs0 hmk h0 h1

/-- Witness for C7: the all-writes-fail oracle on the access public key. -/
theorem C7_write_fallback_witness :
    Ev.writeAttempt .accessPub 1 ∈
      (writeFileWithFallback failWriteFs fs0 .accessPub []).tr
    ∧ (writeFileWithFallback failWriteFs fs0 .accessPub []).err =
        some (failWriteFs.writeErr .accessPub 1)
    ∧ (saveKeys failWriteFs kp0 tk0 fs0).err =
        some ("Failed to save keys: " ++ failWriteFs.writeErr .accessPub 1) := by
  refine ⟨?_, ?_, ?_⟩
  · exact (C7_write_fallback failWriteFs fs0 .accessPub []).1 rfl
  · exact (C7_write_fallback failWriteFs fs0 .accessPub []).2.2.1 rfl rfl
  · exact (C7_write_fallback failWriteFs fs0 .accessPub []).2.2.2.2 kp0 tk0 fs0
      rfl rfl rfl

/-! ## Claim C10 -/

/-- C10: the retry of the protected write is unconditional on the error
class of the first failure: the result is identical for any two oracles
that agree on attempt outcomes and on second-attempt errors (the
first-attempt error is never examined and never surfaces), the retry is
performed, and any surfacing error is the second attempt's. -/
theorem C10_retry_unconditional (o o' : IOOracle) (fs : FSState)
    (t : WriteTarget) (c : JStr) (hw : o.writeOk = o'.writeOk)
    (he : ∀ t', o.writeErr t' 1 = o'.writeErr t' 1)
    (h0 : o.writeOk t 0 = false) :
    writeFileWithFallback o fs t c = writeFileWithFallback o' fs t c
    ∧ Ev.writeAttempt t 1 ∈ (writeFileWithFallback o fs t c).tr
    ∧ ((writeFileWithFallback o fs t c).err = none
      ∨ (writeFileWithFallback o fs t c).err = some (o.writeErr t 1)) := by
  have h0' : o'.writeOk t 0 = false := by rw [← hw]; exact h0
  cases h1 : o.writeOk t 1 with
  | true =>
    have h1' : o'.writeOk t 1 = true := by rw [← hw]; exact h1
    refine ⟨?_, ?_, Or.inl ?_⟩ <;> simp [writeFileWithFallback, h0, h1, h0', h1']
  | false =>
    have h1' : o'.writeOk t 1 = false := by rw [← hw]; exact h1
    rw [wfwf_both_fail o fs t c h0 h1, wfwf_both_fail o' fs t c h0' h1']
    refine ⟨?_, ?_, Or.inr rfl⟩
    · rw [he t]
    · simp

/-- Witness for C10: two oracles whose first attempts fail with unrelated
error classes (missing directory vs. full disk) behave identically. -/
theorem C10_retry_unconditional_witness :
    writeFileWithFallback missingDirFs fs0 .accessPub [] =
      writeFileWithFallback diskFullFs fs0 .accessPub []
    ∧ Ev.writeAttempt .accessPub 1 ∈
        (writeFileWithFallback missingDirFs fs0 .accessPub []).tr
    ∧ ((writeFileWithFallback missingDirFs fs0 .accessPub []).err = none
      ∨ (writeFileWithFallback missingDirFs fs0 .accessPub []).err =
          some (missingDirFs.writeErr .accessPub 1)) :=
  C10_retry_unconditional missingDirFs diskFullFs fs0 .accessPub [] rfl
    (fun _ => rfl) rfl

/-! ## Claim C8 -/

/-- C8: a failure of the directory permission-restriction step is non-fatal:
the chmod-failure event is recorded, the run completes without error, all
five write events occur, and the four key files hold the key material. -/
theorem C8_hardening_nonfatal (o : IOOracle) (keyPath : JStr)
    (tk : TokenKeyPairs) (fs : FSState) (hch : o.chmodOk = false)
    (hmk : o.mkdirOk = true) (hw : ∀ t, o.writeOk t 0 = true) :
    (saveKeys o keyPath tk fs).err = none
    ∧ Ev.chmodFail ∈ (saveKeys o keyPath tk fs).tr
    ∧ (∀ t, Ev.wrote t ∈ (saveKeys o keyPath tk fs).tr)
    ∧ (saveKeys o keyPath tk fs).fs.accessPubFile = some tk.access.publicKey
    ∧ (saveKeys o keyPath tk fs).fs.accessPrivFile = some tk.access.privateKey
    ∧ (saveKeys o keyPath tk fs).fs.refreshPubFile = some tk.refresh.publicKey
    ∧ (saveKeys o keyPath tk fs).fs.refreshPrivFile = some tk.refresh.privateKey := by
  refine ⟨?_, ?_, fun t => ?_, ?_, ?_, ?_, ?_⟩ <;>
    [skip; skip; cases t; skip; skip; skip; skip] <;>
    cases hd : fs.dirCreated <;>
    simp [saveKeys, saveKeysBody, saveKeysPre, StepRes.andThen,
      createSecureKeyDirectory, writeFileWithFallback, FSState.setFile,
      hch, hmk, hd, hw]

/-- Witness for C8: the chmod-failing oracle still persists the key files. -/
theorem C8_hardening_nonfatal_witness :
    (saveKeys chmodFailFs kp0 tk0 fs0).err = none
    ∧ (saveKeys chmodFailFs kp0 tk0 fs0).fs.accessPubFile =
        some tk0.access.publicKey :=
  ⟨(C8_hardening_nonfatal chmodFailFs kp0 tk0 fs0 rfl rfl (fun _ => rfl)).1,
   (C8_hardening_nonfatal chmodFailFs kp0 tk0 fs0 rfl rfl
      (fun _ => rfl)).2.2.2.1⟩

/-! ## Claim C6 -/

theorem generateRSAKeyPair_error (co : CryptoOracle) (kt : KeyType) (off : Nat)
    (e : String) (x : Nat) (h : generateRSAKeyPair co kt off = (.error e, x)) :
    ∃ rest, e = kt.label ++ " key generation failed: " ++ rest := by
  simp only [generateRSAKeyPair] at h
  cases hv : validateKeyPair co (co.keygenPub (off + 32)) (co.keygenPriv (off + 32))
      (generateSecurePassphrase co off) (off + 32 + co.keygenEntropy) with
  | error e' =>
    rw [hv] at h
    simp only [Prod.mk.injEq, Except.error.injEq] at h
    exact ⟨e', h.1.symm⟩
  | ok u => rw [hv] at h; simp at h

theorem tokenKeysResult_error (co : CryptoOracle) (e : String)
    (h : tokenKeysResult co = .error e) :
    ∃ rest, e = "access key generation failed: " ++ rest
      ∨ e = "refresh key generation failed: " ++ rest := by
  unfold tokenKeysResult at h
  split at h
  next e1 x1 heq1 =>
    obtain ⟨rest, hr⟩ := generateRSAKeyPair_error co .access 0 e1 x1 heq1
    injection h with h'
    refine ⟨rest, Or.inl ?_⟩
    rw [← h', hr]
    rfl
  next a1 off1 heq1 =>
  split at h
  next e2 x2 heq2 =>
    obtain ⟨rest, hr⟩ := generateRSAKeyPair_error co .refresh off1 e2 x2 heq2
    injection h with h'
    refine ⟨rest, Or.inr ?_⟩
    rw [← h', hr]
    rfl
  next r2 off2 heq2 => exact Except.noConfusion h

theorem saveKeys_err_shape (o : IOOracle) (keyPath : JStr) (tk : TokenKeyPairs)
    (fs : FSState) (e : String) (h : (saveKeys o keyPath tk fs).err = some e) :
    ∃ rest, e = "Failed to save keys: " ++ rest := by
  simp only [saveKeys] at h
  cases hb : (saveKeysBody o keyPath tk fs).err with
  | none =>
    rw [hb] at h
    simp at h
    exact Option.noConfusion (hb.symm.trans h)
  | some e' =>
    rw [hb] at h
    simp only [Option.some.injEq] at h
    exact ⟨e', h.symm⟩

/-- Counterexample to C6 as stated: at a concrete oracle whose verification
step reports a mismatch, the public `generate` does not return the wrapped
error to the caller — it logs it and terminates the process with exit
code 1, yielding no typed result. -/
theorem C6_counterexample :
    generate badVerifyCrypto okFs kp0 fs0 =
      .exited 1 ("Error during key generation: access key generation failed: Key validation failed: Key pair validation failed")
        fs0 []
    ∧ ∀ fs' tr, generate badVerifyCrypto okFs kp0 fs0 ≠ .success fs' tr := by
  constructor
  · rfl
  · intro fs' tr h
    exact GenOutcome.noConfusion h

/-- C6 amended: when key validation or persistence fails, the run aborts the
remaining stages and the error is a single wrapped message identifying the
failed stage and the underlying cause, but `generate` does not propagate it
to the caller: it logs the message and terminates the process with exit
code 1 instead of returning a typed failure. -/
theorem C6_amended_exit_on_failure (co : CryptoOracle) (o : IOOracle)
    (keyPath : JStr) (fs : FSState) (e : String)
    (h : tokenKeysResult co = .error e ∨
      ∃ tk, tokenKeysResult co = .ok tk ∧ (saveKeys o keyPath tk fs).err = some e) :
    (∃ fs' tr, generate co o keyPath fs =
      .exited 1 ("Error during key generation: " ++ e) fs' tr)
    ∧ (∃ rest, e = "access key generation failed: " ++ rest
      ∨ e = "refresh key generation failed: " ++ rest
      ∨ e = "Failed to save keys: " ++ rest) := by
  constructor
  · rcases h with h | ⟨tk, htk, hsk⟩
    · refine ⟨fs, [], ?_⟩
      unfold generate
      rw [h]
    · refine ⟨(saveKeys o keyPath tk fs).fs, (saveKeys o keyPath tk fs).tr, ?_⟩
      have hstep : generate co o keyPath fs =
          match (saveKeys o keyPath tk fs).err with
          | some e' => .exited 1 ("Error during key generation: " ++ e')
              (saveKeys o keyPath tk fs).fs (saveKeys o keyPath tk fs).tr
          | none => .success (saveKeys o keyPath tk fs).fs
              (saveKeys o keyPath tk fs).tr := by
        unfold generate
        rw [htk]
      rw [hstep, hsk]
  · rcases h with h | ⟨tk, _, hsk⟩
    · obtain ⟨rest, hr | hr⟩ := tokenKeysResult_error co e h
      · exact ⟨rest, Or.inl hr⟩
      · exact ⟨rest, Or.inr (Or.inl hr)⟩
    · obtain ⟨rest, hr⟩ := saveKeys_err_shape o keyPath tk fs e hsk
      exact ⟨rest, Or.inr (Or.inr hr)⟩

/-- Witness for C6 amended: the failing-verification oracle. -/
theorem C6_amended_exit_on_failure_witness :
    (∃ fs' tr, generate badVerifyCrypto okFs kp0 fs0 =
      .exited 1 ("Error during key generation: " ++
        "access key generation failed: Key validation failed: Key pair validation failed")
        fs' tr)
    ∧ (∃ rest,
      "access key generation failed: Key validation failed: Key pair validation failed" =
        "access key generation failed: " ++ rest
      ∨ "access key generation failed: Key validation failed: Key pair validation failed" =
        "refresh key generation failed: " ++ rest
      ∨ "access key generation failed: Key validation failed: Key pair validation failed" =
        "Failed to save keys: " ++ rest) :=
  C6_amended_exit_on_failure badVerifyCrypto okFs kp0 fs0 _ (Or.inl rfl)

end SecureKeyGen
